import Mathlib

/-!
Verification of the `data_clean/preprocessing.py` MIDI-corpus preprocessing
pipeline.  The program filters a corpus of parsed MIDI tracks (keeping tracks
with exactly one key-signature change and one time-signature change), computes
aggregate tempo/pitch statistics, admits tracks whose tempo lies strictly
within one standard deviation of the mean and whose pitch span lies within the
aggregate pitch bounds (inclusive), and assembles the admitted tracks' sliced
piano-roll matrices into one transposed matrix.

Python floats are modelled as real numbers (tempo mean and standard deviation
involve a square root), exact integer means over pitches as rationals, and
Python exceptions as an explicit error type threaded through `Except`.
-/

/-- The Python exceptions this program can raise, identified by the operation
that raises them. -/
inductive PyErr where
  /-- `list index out of range`: `sorted(keys.items(), ...)[0]` on an empty
  key-frequency dict in `get_most_freq_value`. -/
  | indexError
  /-- `min() arg is an empty sequence`: `min(notes)` in `_get_min_max_pitch`
  on a track with zero notes. -/
  | valueErrorMinEmpty
  /-- `cannot convert float NaN to integer`: `int(np.array([]).mean())` in
  `aggregation_report`. -/
  | valueErrorIntOfNan
  /-- `need at least one array to concatenate`: `np.hstack([])` in
  `piano_roll_filter` when no track was admitted. -/
  | valueErrorHstackEmpty
  /-- numpy dimension-mismatch error from `np.hstack` on matrices with
  differing row counts. -/
  | valueErrorDimMismatch
  deriving DecidableEq

/-- One `pretty_midi.KeySignature` event; only `key_number` is read. -/
structure KeySignature where
  key_number : Int

/-- One `pretty_midi.TimeSignature` event; the program only counts them. -/
structure TimeSignature where
  numerator : Nat
  denominator : Nat

/-- One note event; the program only reads `note.pitch` (a MIDI pitch). -/
structure Note where
  pitch : Nat

/-- One instrument part: a list of note events. -/
structure Instrument where
  notes : List Note

/-- A matrix (numpy 2-D array) as a list of rows of floats. -/
abbrev Mat := List (List ℝ)

/-- A successfully parsed MIDI file, with the fields and accessor results of
`pretty_midi.PrettyMIDI` that the program uses.  `estimate_tempo` and
`piano_roll` model the library calls `pm.estimate_tempo()` and
`pm.get_piano_roll()` (a 128-row pitch-by-time matrix); `tempo_change_times`
models the tempo declarations of the file (`pm.get_tempo_changes()`), which
the program never inspects. -/
structure PrettyMIDI where
  key_signature_changes : List KeySignature
  time_signature_changes : List TimeSignature
  tempo_change_times : List ℝ
  instruments : List Instrument
  estimate_tempo : ℝ
  piano_roll : Mat

/-! ## Corpus Loader: `Preprocess._file_filter`

A file that fails to parse is modelled as `none` (the bare `except` swallows
every parsing exception and the loop continues with the next file).  The list
of files is in directory-traversal order. -/

/-- `_file_filter`: the loop body appends a parsed file to `self.pms` iff it
has exactly one key-signature change and exactly one time-signature change;
parse failures (`none`) are silently skipped. -/
def file_filter (files : List (Option PrettyMIDI)) : List PrettyMIDI :=
  files.foldl
    (fun pms f =>
      match f with
      | none => pms
      | some pm =>
        if pm.key_signature_changes.length = 1 ∧
            pm.time_signature_changes.length = 1
        then pms ++ [pm]
        else pms)
    []

/-! ## Metadata Aggregator: `FileReport` and `generate_midi_files_report` -/

/-- `FileReport.__init__`: per-track tempos, key-frequency dict, per-track min
and max pitches.  The Python dict is modelled as an association list in
first-occurrence key order. -/
structure FileReport where
  tempos : List ℝ
  freq_key : List (Int × Nat)
  min_pitch : List Nat
  max_pitch : List Nat

/-- `dict(Counter(keys))`: the distinct keys in first-occurrence order, each
paired with its number of occurrences. -/
def counter (xs : List Int) : List (Int × Nat) :=
  (xs.foldl (fun acc k => if k ∈ acc then acc else acc ++ [k]) []).map
    (fun k => (k, xs.count k))

/-- Insert a key/count pair into a list already sorted by count descending,
after all entries with a count ≥ its own (stability of Python's `sorted`). -/
def insertByCountDesc (p : Int × Nat) : List (Int × Nat) → List (Int × Nat)
  | [] => [p]
  | q :: rest => if q.2 ≤ p.2 then p :: q :: rest else q :: insertByCountDesc p rest

/-- `sorted(keys.items(), key=lambda kv: kv[1], reverse=True)`: stable sort by
count, descending. -/
def sortByCountDesc : List (Int × Nat) → List (Int × Nat)
  | [] => []
  | p :: rest => insertByCountDesc p (sortByCountDesc rest)

/-- `FileReport.get_most_freq_value`: head of the count-descending sort;
`none` models the `IndexError` of `[0]` on an empty list. -/
def get_most_freq_value (keys : List (Int × Nat)) : Option Int :=
  (sortByCountDesc keys).head?.map (fun kv => kv.1)

/-- `np.array(xs).mean()`: `none` models the NaN produced on an empty array. -/
noncomputable def np_mean_r (xs : List ℝ) : Option ℝ :=
  if xs.isEmpty then none else some (xs.sum / (xs.length : ℝ))

/-- `np.array(xs).std()`: population standard deviation, the square root of
the mean squared deviation from the mean; `none` models the NaN produced on an
empty array. -/
noncomputable def np_std_r (xs : List ℝ) : Option ℝ :=
  if xs.isEmpty then none
  else some (Real.sqrt
    ((xs.map (fun x => (x - xs.sum / (xs.length : ℝ)) ^ 2)).sum / (xs.length : ℝ)))

/-- `int(np.array(xs).mean())` for a list of MIDI pitches: the exact rational
mean truncated to an integer.  The mean of naturals is nonnegative, so
Python's truncation toward zero is the floor, and the result is a natural
number; `none` models the `ValueError` of `int(nan)` on an empty array. -/
def np_int_mean (xs : List Nat) : Option Nat :=
  if xs.isEmpty then none
  else some (Int.toNat ⌊(xs.map (Nat.cast : Nat → ℚ)).sum / (xs.length : ℚ)⌋)

/-- `FileReport.aggregation_report`: returns
`(temp_mean, temp_std, most_freq_key, min_pitch, max_pitch)`.
`get_most_freq_value` raises `IndexError` on an empty dict before the `int()`
conversions run; `np.mean`/`np.std` of an empty array are NaN (no exception),
and a NaN reaching `int()` raises `ValueError`.  In every report the pipeline
builds, the four lists are empty simultaneously, so the NaN cases collapse
into the two error branches below. -/
noncomputable def aggregation_report (r : FileReport) :
    Except PyErr (ℝ × ℝ × Int × Nat × Nat) :=
  match get_most_freq_value r.freq_key with
  | none => .error .indexError
  | some most_freq_key =>
    match np_mean_r r.tempos, np_std_r r.tempos,
        np_int_mean r.min_pitch, np_int_mean r.max_pitch with
    | some temp_mean, some temp_std, some min_pitch, some max_pitch =>
      .ok (temp_mean, temp_std, most_freq_key, min_pitch, max_pitch)
    | _, _, _, _ => .error .valueErrorIntOfNan

/-- The pitches of all notes across all instrument parts of a track:
`[note.pitch for instrument in pm.instruments for note in instrument.notes]`. -/
def allNotes (pm : PrettyMIDI) : List Nat :=
  (pm.instruments.map (fun instrument => instrument.notes.map Note.pitch)).flatten

/-- `Preprocess._get_min_max_pitch`: `min(notes), max(notes)`; `min` of an
empty list raises `ValueError`. -/
def get_min_max_pitch (pm : PrettyMIDI) : Except PyErr (Nat × Nat) :=
  match allNotes pm with
  | [] => .error .valueErrorMinEmpty
  | x :: xs => .ok (xs.foldl min x, xs.foldl max x)

/-- The loop state of `generate_midi_files_report`: the four accumulator
lists built across the iteration over `self.pms`. -/
structure GenState where
  tempos : List ℝ
  keys : List Int
  min_pitchs : List Nat
  max_pitchs : List Nat

/-- One iteration of the `generate_midi_files_report` loop: append the
estimated tempo, read `key_signature_changes[0].key_number` (`IndexError` when
there is none), compute min/max pitch (may raise), append both. -/
def reportStep (st : GenState) (pm : PrettyMIDI) : Except PyErr GenState :=
  let tempos := st.tempos ++ [pm.estimate_tempo]
  match pm.key_signature_changes.head? with
  | none => .error .indexError
  | some ks =>
    let keys := st.keys ++ [ks.key_number]
    match get_min_max_pitch pm with
    | .error e => .error e
    | .ok (min_pitch, max_pitch) =>
      .ok ⟨tempos, keys, st.min_pitchs ++ [min_pitch], st.max_pitchs ++ [max_pitch]⟩

/-- The `for pm in self.pms` loop of `generate_midi_files_report`. -/
def reportLoop (st : GenState) : List PrettyMIDI → Except PyErr GenState
  | [] => .ok st
  | pm :: rest =>
    match reportStep st pm with
    | .error e => .error e
    | .ok st' => reportLoop st' rest

/-- `Preprocess.generate_midi_files_report`: run the loop from empty
accumulators and build `FileReport(tempos, dict(Counter(keys)), min_pitchs,
max_pitchs)`. -/
def generate_midi_files_report (pms : List PrettyMIDI) : Except PyErr FileReport :=
  (reportLoop ⟨[], [], [], []⟩ pms).map
    (fun st => ⟨st.tempos, counter st.keys, st.min_pitchs, st.max_pitchs⟩)

/-! ## Range Filter: `_is_in_tempo_range`, `_is_in_pitch_range` -/

open Classical in
/-- `Preprocess._is_in_tempo_range`:
`tempo > (mean - std) and tempo < (mean + std)`. -/
noncomputable def is_in_tempo_range (tempo mean std : ℝ) : Bool :=
  if tempo > mean - std ∧ tempo < mean + std then true else false

/-- `Preprocess._is_in_pitch_range`:
`low_pitch >= left_boundary and high_pitch <= right_boundary`. -/
def is_in_pitch_range (low_pitch high_pitch left_boundary right_boundary : Nat) : Bool :=
  if low_pitch ≥ left_boundary ∧ high_pitch ≤ right_boundary then true else false

/-! ## Matrix Assembler: slicing, `np.hstack`, transpose -/

/-- The Python row slice `m[lo : hi + 1]` (for nonnegative bounds). -/
def sliceRows (lo hi : Nat) (m : Mat) : Mat :=
  (m.drop lo).take (hi + 1 - lo)

/-- The number of time steps of a piano-roll matrix: the length of its first
row (0 for the empty matrix). -/
def timeSteps (m : Mat) : Nat :=
  (m.headD []).length

/-- `np.hstack`: concatenate matrices along the time axis (row `i` of the
result is the concatenation of the rows `i`).  Raises on an empty list and on
mismatched row counts. -/
def np_hstack (ms : List Mat) : Except PyErr Mat :=
  match ms with
  | [] => .error .valueErrorHstackEmpty
  | r :: rs =>
    if rs.all (fun b => b.length == r.length)
    then .ok (rs.foldl (fun a b => a.zipWith (fun x y => x ++ y) b) r)
    else .error .valueErrorDimMismatch

/-- `result.T`: the numpy transpose of a rectangular matrix; entry `(j, i)`
of the result is entry `(i, j)` of the input. -/
def np_transpose (m : Mat) : Mat :=
  (List.range (timeSteps m)).map (fun j => m.map (fun row => row.getD j 0))

/-! ## The pipeline: `Preprocess.piano_roll_filter` -/

/-- The filtering loop of `piano_roll_filter`: for each track, re-derive its
tempo and min/max pitch (`min` may raise on a zero-note track), and if the
tempo test and the pitch test both pass, append the piano roll sliced to rows
`[lo, hi]` to the collected list. -/
noncomputable def rollLoop (m s : ℝ) (lo hi : Nat) (acc : List Mat) :
    List PrettyMIDI → Except PyErr (List Mat)
  | [] => .ok acc
  | pm :: rest =>
    match get_min_max_pitch pm with
    | .error e => .error e
    | .ok (min_pitch, max_pitch) =>
      if is_in_tempo_range pm.estimate_tempo m s &&
          is_in_pitch_range min_pitch max_pitch lo hi
      then rollLoop m s lo hi (acc ++ [sliceRows lo hi pm.piano_roll]) rest
      else rollLoop m s lo hi acc rest

/-- The first two lines of `piano_roll_filter`: generate the report and
destructure its aggregation. -/
noncomputable def corpus_aggregates (pms : List PrettyMIDI) :
    Except PyErr (ℝ × ℝ × Int × Nat × Nat) := do
  let report ← generate_midi_files_report pms
  aggregation_report report

/-- `piano_roll_filter` up to and including the admission loop: the list of
sliced piano rolls of the admitted tracks, in input order. -/
noncomputable def admittedRolls (pms : List PrettyMIDI) : Except PyErr (List Mat) := do
  let (temp_mean, temp_std, _key, left_pitch_bounary, right_pitch_boundary) ←
    corpus_aggregates pms
  rollLoop temp_mean temp_std left_pitch_bounary right_pitch_boundary [] pms

/-- `Preprocess.piano_roll_filter`: collect the admitted sliced rolls, then
`result = np.hstack(piano_rolls); return result.T`. -/
noncomputable def piano_roll_filter (pms : List PrettyMIDI) : Except PyErr Mat := do
  let piano_rolls ← admittedRolls pms
  let result ← np_hstack piano_rolls
  pure (np_transpose result)

/-! ## Concrete tracks and files used by witnesses and counterexamples -/

/-- A track with one key signature, one time signature, a single tempo
declaration, and one note of pitch 60. -/
noncomputable def pmOneNote : PrettyMIDI :=
  { key_signature_changes := [⟨0⟩]
    time_signature_changes := [⟨4, 4⟩]
    tempo_change_times := [0]
    instruments := [⟨[⟨60⟩]⟩]
    estimate_tempo := 120
    piano_roll := [] }

/-- A track that parses with one key and one time signature but declares two
tempo changes. -/
noncomputable def pmTwoTempos : PrettyMIDI :=
  { key_signature_changes := [⟨0⟩]
    time_signature_changes := [⟨4, 4⟩]
    tempo_change_times := [0, 48]
    instruments := [⟨[⟨60⟩]⟩]
    estimate_tempo := 120
    piano_roll := [] }

/-- A track that parses but declares two key-signature changes. -/
noncomputable def pmTwoKeys : PrettyMIDI :=
  { key_signature_changes := [⟨0⟩, ⟨5⟩]
    time_signature_changes := [⟨4, 4⟩]
    tempo_change_times := [0]
    instruments := [⟨[⟨60⟩]⟩]
    estimate_tempo := 120
    piano_roll := [] }

/-- A track with one key and one time signature but zero notes. -/
noncomputable def pmNoNotes : PrettyMIDI :=
  { key_signature_changes := [⟨0⟩]
    time_signature_changes := [⟨4, 4⟩]
    tempo_change_times := [0]
    instruments := []
    estimate_tempo := 100
    piano_roll := [] }

/-- A track with one key signature, one time signature, and two notes of
pitches 60 and 64. -/
noncomputable def pmLowHigh : PrettyMIDI :=
  { key_signature_changes := [⟨0⟩]
    time_signature_changes := [⟨4, 4⟩]
    tempo_change_times := [0]
    instruments := [⟨[⟨60⟩, ⟨64⟩]⟩]
    estimate_tempo := 120
    piano_roll := [] }

/-- The pitch bounds of an aggregation result: the fourth and fifth components
of the returned tuple (the low and high pitch bound), or `(0, 0)` on error. -/
def pitchBoundsOf (e : Except PyErr (ℝ × ℝ × Int × Nat × Nat)) : Nat × Nat :=
  match e with
  | .ok (_, _, _, lo, hi) => (lo, hi)
  | .error _ => (0, 0)

/-- A 128-row piano roll with 50 time steps (all cells silent). -/
noncomputable def roll50 : Mat := List.replicate 128 (List.replicate 50 0)

/-- A 128-row piano roll with 30 time steps (all cells silent). -/
noncomputable def roll30 : Mat := List.replicate 128 (List.replicate 30 0)

/-! ## Helper lemmas -/

/-- The loader in closed form: it keeps, in input order, exactly the parsed
files with one key-signature change and one time-signature change. -/
theorem file_filter_eq_filter (files : List (Option PrettyMIDI)) :
    file_filter files = (files.filterMap id).filter
      (fun pm => decide (pm.key_signature_changes.length = 1 ∧
                         pm.time_signature_changes.length = 1)) := by
  suffices h : ∀ (fs : List (Option PrettyMIDI)) (acc : List PrettyMIDI),
      fs.foldl
        (fun pms f =>
          match f with
          | none => pms
          | some pm =>
            if pm.key_signature_changes.length = 1 ∧
                pm.time_signature_changes.length = 1
            then pms ++ [pm]
            else pms)
        acc
        = acc ++ (fs.filterMap id).filter
          (fun pm => decide (pm.key_signature_changes.length = 1 ∧
                             pm.time_signature_changes.length = 1)) by
    simpa [file_filter] using h files []
  intro fs
  induction fs with
  | nil => intro acc; simp
  | cons f fs ih =>
    intro acc
    cases f with
    | none => simpa using ih acc
    | some pm =>
      by_cases hpm : pm.key_signature_changes.length = 1 ∧
          pm.time_signature_changes.length = 1
      · simp [List.foldl_cons, hpm, ih]
      · simp [List.foldl_cons, hpm, ih]

/-- With standard deviation 0, the open tempo interval is empty. -/
theorem tempo_range_std_zero (tempo mean : ℝ) :
    is_in_tempo_range tempo mean 0 = false := by
  unfold is_in_tempo_range
  rw [if_neg]
  rintro ⟨h1, h2⟩
  linarith

/-- The admission loop leaves its accumulator unchanged when the standard
deviation is 0. -/
theorem rollLoop_std_zero (pms : List PrettyMIDI) :
    ∀ (m : ℝ) (lo hi : Nat) (acc : List Mat) (rolls : List Mat),
      rollLoop m 0 lo hi acc pms = .ok rolls → rolls = acc := by
  induction pms with
  | nil =>
    intro m lo hi acc rolls h
    simpa [rollLoop] using h.symm
  | cons pm rest ih =>
    intro m lo hi acc rolls h
    rw [rollLoop] at h
    cases hmm : get_min_max_pitch pm with
    | error e => rw [hmm] at h; cases h
    | ok p =>
      rw [hmm] at h
      simp only [tempo_range_std_zero, Bool.false_and, if_neg] at h
      exact ih m lo hi acc rolls h

/-! ## Claims -/

/-- C2: the Range Filter's tempo test admits a track iff
`mean - std < tempo < mean + std` with both inequalities strict; with mean 120
and std 10, tempos 110 and 130 are excluded and tempo 115 is included. -/
theorem tempo_range_strict_open :
    (∀ tempo mean std : ℝ,
      is_in_tempo_range tempo mean std = true ↔
        mean - std < tempo ∧ tempo < mean + std) ∧
    is_in_tempo_range 115 120 10 = true ∧
    is_in_tempo_range 110 120 10 = false ∧
    is_in_tempo_range 130 120 10 = false := by
  refine ⟨fun tempo mean std => ?_, ?_, ?_, ?_⟩
  · unfold is_in_tempo_range
    split
    · simp_all
    · simp_all
  · unfold is_in_tempo_range
    rw [if_pos (by norm_num)]
  · unfold is_in_tempo_range
    rw [if_neg (by norm_num)]
  · unfold is_in_tempo_range
    rw [if_neg (by norm_num)]

/-- C3: the Range Filter's pitch test admits a track iff
`min_pitch >= low_pitch_bound` and `max_pitch <= high_pitch_bound`, both
inclusive; with bounds 21 and 108, a track spanning exactly 21–108 is
included, and `min_pitch = 20` is excluded. -/
theorem pitch_range_closed :
    (∀ low_pitch high_pitch left_boundary right_boundary : Nat,
      is_in_pitch_range low_pitch high_pitch left_boundary right_boundary = true ↔
        left_boundary ≤ low_pitch ∧ high_pitch ≤ right_boundary) ∧
    is_in_pitch_range 21 108 21 108 = true ∧
    is_in_pitch_range 20 108 21 108 = false := by
  refine ⟨fun low high left right => ?_, by decide, by decide⟩
  unfold is_in_pitch_range
  split
  · simp_all
  · simp_all

/-- C4: the Corpus Loader retains, in directory-traversal order, exactly the
successfully parsed files with exactly one key-signature change and exactly
one time-signature change; every other parsed file is dropped. -/
theorem loader_keeps_single_key_time (files : List (Option PrettyMIDI)) :
    file_filter files = (files.filterMap id).filter
      (fun pm => decide (pm.key_signature_changes.length = 1 ∧
                         pm.time_signature_changes.length = 1)) :=
  file_filter_eq_filter files

/-- C7: with standard deviation 0 the tempo interval `(mean, mean)` is empty,
so no track passes the tempo test and the admission loop admits nothing. -/
theorem std_zero_admits_no_track :
    (∀ tempo mean : ℝ, is_in_tempo_range tempo mean 0 = false) ∧
    (∀ (m : ℝ) (lo hi : Nat) (pms : List PrettyMIDI) (rolls : List Mat),
      rollLoop m 0 lo hi [] pms = .ok rolls → rolls = []) :=
  ⟨tempo_range_std_zero,
   fun m lo hi pms rolls h => rollLoop_std_zero pms m lo hi [] rolls h⟩

/-- C10: a file whose processing fails is silently skipped and the loader
continues with the remaining files; a directory with zero loadable files
yields the empty list without an exception. -/
theorem loader_swallows_per_file_failures :
    (∀ (l1 l2 : List (Option PrettyMIDI)),
      file_filter (l1 ++ none :: l2) = file_filter (l1 ++ l2)) ∧
    (∀ files : List (Option PrettyMIDI),
      (∀ f ∈ files, f = none) → file_filter files = []) := by
  constructor
  · intro l1 l2
    rw [file_filter_eq_filter, file_filter_eq_filter]
    simp
  · intro files h
    rw [file_filter_eq_filter]
    have : files.filterMap id = [] := by
      rw [List.filterMap_eq_nil_iff]
      intro a ha
      simp [h a ha]
    rw [this]
    simp

/-! ## Matrix Assembler shape lemmas -/

/-- Concatenating two matrices row-wise adds the row lengths. -/
theorem zipWith_append_row_len {a b : Mat} {n t : Nat}
    (ha : ∀ r ∈ a, r.length = n) (hb : ∀ r ∈ b, r.length = t) :
    ∀ r ∈ a.zipWith (fun x y => x ++ y) b, r.length = n + t := by
  induction a generalizing b with
  | nil => simp
  | cons x xs ih =>
    cases b with
    | nil => simp
    | cons y ys =>
      intro r hr
      rw [List.zipWith_cons_cons] at hr
      rcases List.mem_cons.mp hr with h | h
      · subst h
        simp [ha x (by simp), hb y (by simp)]
      · exact ih (fun r hr => ha r (by simp [hr]))
          (fun r hr => hb r (by simp [hr])) r h

/-- Shape of the `np.hstack` fold: starting from a matrix with `R` rows of
length `n` and stacking matrices with `R` rows of lengths `ts`, the result has
`R` rows of length `n + ts.sum`. -/
theorem hstack_fold_shape {R : Nat} :
    ∀ (bs : List Mat) (ts : List Nat) (a : Mat) (n : Nat),
      bs.length = ts.length →
      a.length = R → (∀ row ∈ a, row.length = n) →
      (∀ p ∈ bs.zip ts, p.1.length = R ∧ ∀ row ∈ p.1, row.length = p.2) →
      (bs.foldl (fun x y => x.zipWith (fun u v => u ++ v) y) a).length = R ∧
        ∀ row ∈ bs.foldl (fun x y => x.zipWith (fun u v => u ++ v) y) a,
          row.length = n + ts.sum := by
  intro bs
  induction bs with
  | nil =>
    intro ts a n hlen ha har _
    cases ts with
    | cons t ts => simp at hlen
    | nil => exact ⟨by simpa using ha, by simpa using har⟩
  | cons b bs ih =>
    intro ts a n hlen ha har hbs
    cases ts with
    | nil => simp at hlen
    | cons t ts =>
      have hb := hbs (b, t) (by simp)
      have h1 : (a.zipWith (fun u v => u ++ v) b).length = R := by
        rw [List.length_zipWith, ha, hb.1, Nat.min_self]
      have h2 : ∀ row ∈ a.zipWith (fun u v => u ++ v) b, row.length = n + t :=
        zipWith_append_row_len har hb.2
      have hrec := ih ts (a.zipWith (fun u v => u ++ v) b) (n + t)
        (by simpa using hlen) h1 h2 (fun p hp => hbs p (by simp [hp]))
      refine ⟨by simpa using hrec.1, ?_⟩
      intro row hrow
      have := hrec.2 row (by simpa using hrow)
      simpa [Nat.add_assoc] using this

/-- Shape of the Python slice `roll[lo : hi + 1]` of a 128-row matrix. -/
theorem sliceRows_shape {lo hi : Nat} {m : Mat} (h128 : m.length = 128)
    (hlo : lo ≤ hi) (hhi : hi ≤ 127) :
    (sliceRows lo hi m).length = hi - lo + 1 ∧
      ∀ row ∈ sliceRows lo hi m, row ∈ m := by
  constructor
  · simp only [sliceRows, List.length_take, List.length_drop, h128]
    omega
  · intro row hrow
    exact List.drop_subset lo m (List.take_subset _ _ hrow)

/-- Shape of the numpy transpose of a nonempty rectangular matrix. -/
theorem np_transpose_shape {m : Mat} {R N : Nat} (hR : m.length = R)
    (hrows : ∀ row ∈ m, row.length = N) (hne : m ≠ []) :
    (np_transpose m).length = N ∧ ∀ row ∈ np_transpose m, row.length = R := by
  have hts : timeSteps m = N := by
    cases m with
    | nil => exact absurd rfl hne
    | cons r rs => simpa [timeSteps] using hrows r (by simp)
  constructor
  · simp [np_transpose, hts]
  · intro row hrow
    simp only [np_transpose, List.mem_map, List.mem_range] at hrow
    obtain ⟨j, _, rfl⟩ := hrow
    simp [hR]

/-- C1: for a non-empty list of admitted tracks, the Matrix Assembler slices
each 128-row piano roll to rows `[lo, hi]` inclusive, concatenates the slices
along the time axis in admission order, and returns the transpose, whose shape
is (sum of the tracks' time steps, `hi - lo + 1`). -/
theorem matrix_assembler_shape (lo hi : Nat) (rolls : List Mat)
    (hne : rolls ≠ [])
    (h128 : ∀ r ∈ rolls, r.length = 128)
    (hrect : ∀ r ∈ rolls, ∀ row ∈ r, row.length = timeSteps r)
    (hlo : lo ≤ hi) (hhi : hi ≤ 127) :
    ∃ H, np_hstack (rolls.map (sliceRows lo hi)) = .ok H ∧
      (np_transpose H).length = (rolls.map timeSteps).sum ∧
      ∀ row ∈ np_transpose H, row.length = hi - lo + 1 := by
  cases rolls with
  | nil => exact absurd rfl hne
  | cons r rs =>
    have hslice : ∀ b ∈ r :: rs,
        (sliceRows lo hi b).length = hi - lo + 1 ∧
          ∀ row ∈ sliceRows lo hi b, row.length = timeSteps b := by
      intro b hb
      obtain ⟨h1, h2⟩ := sliceRows_shape (h128 b hb) hlo hhi
      exact ⟨h1, fun row hrow => hrect b hb row (h2 row hrow)⟩
    have hguard : (rs.map (sliceRows lo hi)).all
        (fun b => b.length == (sliceRows lo hi r).length) = true := by
      rw [List.all_eq_true]
      intro b hb
      rw [List.mem_map] at hb
      obtain ⟨x, hx, rfl⟩ := hb
      rw [beq_iff_eq, (hslice x (by simp [hx])).1, (hslice r (by simp)).1]
    have hfold := hstack_fold_shape (R := hi - lo + 1)
      (rs.map (sliceRows lo hi)) (rs.map timeSteps) (sliceRows lo hi r)
      (timeSteps r) (by simp) (hslice r (by simp)).1 (hslice r (by simp)).2
      (by
        intro p hp
        rw [List.zip_map'] at hp
        rw [List.mem_map] at hp
        obtain ⟨x, hx, rfl⟩ := hp
        exact ⟨(hslice x (by simp [hx])).1, (hslice x (by simp [hx])).2⟩)
    set H := (rs.map (sliceRows lo hi)).foldl
      (fun x y => x.zipWith (fun u v => u ++ v) y) (sliceRows lo hi r) with hH
    have hHne : H ≠ [] := by
      intro habs
      rw [habs] at hfold
      simp at hfold
    have htr := np_transpose_shape hfold.1 hfold.2 hHne
    refine ⟨H, ?_, ?_, htr.2⟩
    · rw [List.map_cons, np_hstack, if_pos hguard]
    · rw [htr.1]
      simp [Nat.add_comm]

/-- C1 witness: two admitted 128-row rolls with 50 and 30 time steps, sliced
to rows `[21, 108]`, assemble to a matrix of shape `(80, 88)`. -/
theorem matrix_assembler_shape_witness :
    ([roll50, roll30] : List Mat) ≠ [] ∧
      ∃ H, np_hstack ([roll50, roll30].map (sliceRows 21 108)) = .ok H ∧
        (np_transpose H).length = 80 ∧
        ∀ row ∈ np_transpose H, row.length = 88 := by
  have h128 : ∀ r ∈ ([roll50, roll30] : List Mat), r.length = 128 := by
    intro r hr
    rcases List.mem_cons.mp hr with h | h
    · simp [h, roll50]
    · simp only [List.mem_cons, List.not_mem_nil, or_false] at h
      simp [h, roll30]
  have h50 : timeSteps roll50 = 50 := by simp [roll50, timeSteps]
  have h30 : timeSteps roll30 = 30 := by simp [roll30, timeSteps]
  have hrect : ∀ r ∈ ([roll50, roll30] : List Mat),
      ∀ row ∈ r, row.length = timeSteps r := by
    intro r hr row hrow
    simp only [List.mem_cons, List.not_mem_nil, or_false] at hr
    rcases hr with h | h
    · subst h
      have hrep : row = List.replicate 50 0 :=
        List.eq_of_mem_replicate (by simpa only [roll50] using hrow)
      subst hrep
      rw [h50]
      simp
    · subst h
      have hrep : row = List.replicate 30 0 :=
        List.eq_of_mem_replicate (by simpa only [roll30] using hrow)
      subst hrep
      rw [h30]
      simp
  obtain ⟨H, h1, h2, h3⟩ := matrix_assembler_shape 21 108 [roll50, roll30]
    (by simp) h128 hrect (by norm_num) (by norm_num)
  refine ⟨by simp, H, h1, ?_, fun row hrow => by simpa using h3 row hrow⟩
  rw [h2]
  simp [h50, h30]

/-! ## Aggregate pitch-bound lemmas (C8) -/

/-- Folding `min` from a start below the start of a `max` fold stays below. -/
theorem foldl_min_le_foldl_max (xs : List Nat) :
    ∀ a b : Nat, a ≤ b → xs.foldl min a ≤ xs.foldl max b := by
  induction xs with
  | nil => intro a b h; simpa using h
  | cons x xs ih =>
    intro a b h
    exact ih (min a x) (max b x)
      (le_trans (min_le_left a x) (le_trans h (le_max_left b x)))

/-- A track's computed min pitch is at most its computed max pitch. -/
theorem get_min_max_le {pm : PrettyMIDI} {mn mx : Nat}
    (h : get_min_max_pitch pm = .ok (mn, mx)) : mn ≤ mx := by
  unfold get_min_max_pitch at h
  split at h
  · cases h
  · injection h with h
    rw [Prod.mk.injEq] at h
    obtain ⟨h1, h2⟩ := h
    subst h1
    subst h2
    exact foldl_min_le_foldl_max _ _ _ le_rfl

/-- One report-loop step preserves the pointwise min ≤ max relation between
the accumulated pitch lists. -/
theorem reportStep_ok_forall2 {st st' : GenState} {pm : PrettyMIDI}
    (h : reportStep st pm = .ok st')
    (hf : List.Forall₂ (· ≤ ·) st.min_pitchs st.max_pitchs) :
    List.Forall₂ (· ≤ ·) st'.min_pitchs st'.max_pitchs := by
  unfold reportStep at h
  split at h
  · cases h
  · cases hmm : get_min_max_pitch pm with
    | error e => rw [hmm] at h; cases h
    | ok p =>
      obtain ⟨mn, mx⟩ := p
      rw [hmm] at h
      injection h with h
      subst h
      exact List.rel_append hf (List.Forall₂.cons (get_min_max_le hmm) List.Forall₂.nil)

/-- The report loop preserves the pointwise min ≤ max relation. -/
theorem reportLoop_forall2 (pms : List PrettyMIDI) :
    ∀ st st' : GenState, reportLoop st pms = .ok st' →
      List.Forall₂ (· ≤ ·) st.min_pitchs st.max_pitchs →
      List.Forall₂ (· ≤ ·) st'.min_pitchs st'.max_pitchs := by
  induction pms with
  | nil =>
    intro st st' h hf
    simp only [reportLoop] at h
    injection h with h
    subst h
    exact hf
  | cons pm rest ih =>
    intro st st' h hf
    simp only [reportLoop] at h
    cases hstep : reportStep st pm with
    | error e => rw [hstep] at h; cases h
    | ok st1 =>
      rw [hstep] at h
      exact ih st1 st' h (reportStep_ok_forall2 hstep hf)

/-- A successfully generated report has pointwise min ≤ max pitch lists. -/
theorem generate_ok_forall2 {pms : List PrettyMIDI} {rep : FileReport}
    (h : generate_midi_files_report pms = .ok rep) :
    List.Forall₂ (· ≤ ·) rep.min_pitch rep.max_pitch := by
  unfold generate_midi_files_report at h
  cases hrl : reportLoop ⟨[], [], [], []⟩ pms with
  | error e => rw [hrl] at h; cases h
  | ok st =>
    rw [hrl] at h
    simp only [Except.map] at h
    injection h with h
    subst h
    exact reportLoop_forall2 pms ⟨[], [], [], []⟩ st hrl List.Forall₂.nil

/-- Pointwise-dominated pitch lists have dominated rational sums. -/
theorem sum_cast_le_of_forall2 {xs ys : List Nat}
    (hf : List.Forall₂ (· ≤ ·) xs ys) :
    (xs.map (Nat.cast : Nat → ℚ)).sum ≤ (ys.map (Nat.cast : Nat → ℚ)).sum := by
  induction hf with
  | nil => simp
  | @cons a b l1 l2 hab htail ih =>
    rw [List.map_cons, List.map_cons, List.sum_cons, List.sum_cons]
    exact add_le_add (by exact_mod_cast hab) ih

/-- Truncated integer means of pointwise-dominated pitch lists are ordered. -/
theorem np_int_mean_mono {xs ys : List Nat} (hf : List.Forall₂ (· ≤ ·) xs ys)
    {lo hi : Nat} (hx : np_int_mean xs = some lo) (hy : np_int_mean ys = some hi) :
    lo ≤ hi := by
  rw [np_int_mean] at hx hy
  split at hx
  · cases hx
  · split at hy
    · cases hy
    · rename_i hxe hye
      injection hx with hx
      injection hy with hy
      subst hx
      subst hy
      have hlen : xs.length = ys.length := hf.length_eq
      have hxne : xs ≠ [] := by simpa [List.isEmpty_iff] using hxe
      have hpos : (0:ℚ) < (xs.length : ℚ) := by
        have := List.length_pos.mpr hxne
        exact_mod_cast this
      apply Int.toNat_le_toNat
      apply Int.floor_le_floor
      rw [← hlen]
      exact (div_le_div_iff_of_pos_right hpos).mpr (sum_cast_le_of_forall2 hf)

/-- A successful aggregation read its pitch bounds from the report's pitch
lists via `np_int_mean`. -/
theorem aggregation_report_ok_inv {r : FileReport} {m s : ℝ} {k : Int}
    {lo hi : Nat} (h : aggregation_report r = .ok (m, s, k, lo, hi)) :
    np_int_mean r.min_pitch = some lo ∧ np_int_mean r.max_pitch = some hi := by
  unfold aggregation_report at h
  split at h
  · cases h
  · split at h
    · rename_i heq1 heq2 heq3 heq4
      injection h with h
      rw [Prod.mk.injEq] at h
      obtain ⟨hm, h⟩ := h
      rw [Prod.mk.injEq] at h
      obtain ⟨hs, h⟩ := h
      rw [Prod.mk.injEq] at h
      obtain ⟨hk, h⟩ := h
      rw [Prod.mk.injEq] at h
      obtain ⟨hlo, hhi⟩ := h
      subst hlo
      subst hhi
      exact ⟨heq3, heq4⟩
    · cases h

/-- C8: whenever the corpus aggregation succeeds, the integer low pitch bound
(truncated mean of per-track min pitches) is at most the integer high pitch
bound (truncated mean of per-track max pitches). -/
theorem aggregate_low_le_high (pms : List PrettyMIDI)
    (h : (corpus_aggregates pms).isOk = true) :
    (pitchBoundsOf (corpus_aggregates pms)).1 ≤
      (pitchBoundsOf (corpus_aggregates pms)).2 := by
  cases hc : corpus_aggregates pms with
  | error e => rw [hc] at h; simp [Except.isOk, Except.toBool] at h
  | ok r =>
    obtain ⟨m, s, k, lo, hi⟩ := r
    simp only [pitchBoundsOf]
    unfold corpus_aggregates at hc
    simp only [bind, Except.bind] at hc
    cases hg : generate_midi_files_report pms with
    | error e => rw [hg] at hc; cases hc
    | ok rep =>
      rw [hg] at hc
      obtain ⟨hlo, hhi⟩ := aggregation_report_ok_inv hc
      exact np_int_mean_mono (generate_ok_forall2 hg) hlo hhi

/-- C8 witness: a one-track corpus with notes of pitch 60 and 64 aggregates
successfully, and its low pitch bound is at most its high pitch bound. -/
theorem aggregate_low_le_high_witness :
    (corpus_aggregates [pmLowHigh]).isOk = true ∧
      (pitchBoundsOf (corpus_aggregates [pmLowHigh])).1 ≤
        (pitchBoundsOf (corpus_aggregates [pmLowHigh])).2 :=
  ⟨rfl, aggregate_low_le_high [pmLowHigh] rfl⟩

/-! ## Zero-note tracks abort the run (C9) -/

/-- If every track has a key signature and some track has zero notes, the
report loop stops with the `min()`-of-empty-sequence error. -/
theorem reportLoop_zero_note_error (pms : List PrettyMIDI) :
    ∀ st : GenState,
      (∀ pm ∈ pms, pm.key_signature_changes ≠ []) →
      (∃ pm ∈ pms, allNotes pm = []) →
      reportLoop st pms = .error .valueErrorMinEmpty := by
  induction pms with
  | nil =>
    intro st _ hz
    simp at hz
  | cons pm rest ih =>
    intro st hk hz
    simp only [reportLoop]
    cases hkh : pm.key_signature_changes.head? with
    | none =>
      exact absurd (List.head?_eq_none_iff.mp hkh) (hk pm (by simp))
    | some ks =>
      cases hnotes : allNotes pm with
      | nil =>
        simp [reportStep, hkh, get_min_max_pitch, hnotes]
      | cons x xs =>
        have hz' : ∃ q ∈ rest, allNotes q = [] := by
          obtain ⟨q, hq, hqn⟩ := hz
          rcases List.mem_cons.mp hq with h | h
          · subst h
            rw [hnotes] at hqn
            cases hqn
          · exact ⟨q, h, hqn⟩
        have hkrest : ∀ q ∈ rest, q.key_signature_changes ≠ [] :=
          fun q hq => hk q (by simp [hq])
        simp only [reportStep, hkh, get_min_max_pitch, hnotes]
        exact ih _ hkrest hz'

/-- C9: a track with zero notes reaching the metadata computation makes
`min(notes)` fail, and the error propagates fatally out of
`piano_roll_filter` (the run aborts; the track is not skipped). -/
theorem empty_track_error_propagates (pms : List PrettyMIDI)
    (hk : ∀ pm ∈ pms, pm.key_signature_changes ≠ [])
    (hz : ∃ pm ∈ pms, allNotes pm = []) :
    piano_roll_filter pms = .error .valueErrorMinEmpty := by
  have hrep : reportLoop ⟨[], [], [], []⟩ pms = .error .valueErrorMinEmpty :=
    reportLoop_zero_note_error pms _ hk hz
  simp [piano_roll_filter, admittedRolls, corpus_aggregates,
    generate_midi_files_report, hrep, Except.map, bind, Except.bind]

/-- C9 witness: a corpus containing a track with one key signature and zero
notes makes the whole pipeline fail with the `min()`-of-empty error. -/
theorem empty_track_error_propagates_witness :
    ((∀ pm ∈ [pmNoNotes], pm.key_signature_changes ≠ []) ∧
      ∃ pm ∈ [pmNoNotes], allNotes pm = []) ∧
      piano_roll_filter [pmNoNotes] = .error .valueErrorMinEmpty := by
  have hk : ∀ pm ∈ [pmNoNotes], pm.key_signature_changes ≠ [] := by
    intro pm hpm
    rw [List.mem_singleton] at hpm
    subst hpm
    simp [pmNoNotes]
  have hz : ∃ pm ∈ [pmNoNotes], allNotes pm = [] :=
    ⟨pmNoNotes, by simp, by simp [allNotes, pmNoNotes]⟩
  exact ⟨⟨hk, hz⟩, empty_track_error_propagates [pmNoNotes] hk hz⟩

/-! ## The empty-corpus failure (C6) -/

/-- C6 counterexample: a directory whose only file has two key-signature
changes loads an empty corpus, and the run then fails inside the Metadata
Aggregator (`IndexError` from the most-frequent-key lookup on an empty
counter) — an earlier stage than the assembly-time concatenation failure. -/
theorem empty_corpus_fails_at_aggregation :
    file_filter [some pmTwoKeys] = [] ∧
      piano_roll_filter (file_filter [some pmTwoKeys]) = .error .indexError ∧
      PyErr.indexError ≠ PyErr.valueErrorHstackEmpty := by
  have h1 : file_filter [some pmTwoKeys] = [] := by
    simp [file_filter, pmTwoKeys]
  refine ⟨h1, ?_, by decide⟩
  rw [h1]
  rfl

/-- C6 amended: when the admission loop itself completes and admits zero
tracks, the failure point is the Matrix Assembler: `np.hstack` of the empty
collection raises, rather than an empty matrix being returned. -/
theorem filter_empty_fails_at_hstack (pms : List PrettyMIDI)
    (h : admittedRolls pms = .ok []) :
    piano_roll_filter pms = .error .valueErrorHstackEmpty := by
  simp [piano_roll_filter, h, np_hstack, bind, Except.bind]

/-- C6 amended witness: a one-track corpus whose tempo standard deviation is 0
admits zero tracks, and the run then fails at the `np.hstack` of the empty
collection. -/
theorem filter_empty_fails_at_hstack_witness :
    admittedRolls [pmOneNote] = .ok [] ∧
      piano_roll_filter [pmOneNote] = .error .valueErrorHstackEmpty := by
  have hmean : np_mean_r [(120 : ℝ)] = some 120 := by
    rw [np_mean_r]
    norm_num
  have hstd : np_std_r [(120 : ℝ)] = some 0 := by
    rw [np_std_r]
    have h0 : (([(120 : ℝ)].map
        (fun x => (x - [(120 : ℝ)].sum / (([(120 : ℝ)].length : Nat) : ℝ)) ^ 2)).sum /
          (([(120 : ℝ)].length : Nat) : ℝ)) = 0 := by
      norm_num
    rw [if_neg (by norm_num), h0, Real.sqrt_zero]
  have hgen : generate_midi_files_report [pmOneNote] =
      .ok ⟨[120], [(0, 1)], [60], [60]⟩ := by
    simp [generate_midi_files_report, reportLoop, reportStep, pmOneNote,
      get_min_max_pitch, allNotes, counter, Except.map]
  have hint : np_int_mean [60] = some 60 := by
    rw [np_int_mean]
    norm_num
    decide
  have hagg : corpus_aggregates [pmOneNote] = .ok (120, 0, 0, 60, 60) := by
    simp [corpus_aggregates, hgen, aggregation_report, get_most_freq_value,
      sortByCountDesc, insertByCountDesc, hmean, hstd, hint, bind, Except.bind]
  have hroll : rollLoop 120 0 60 60 [] [pmOneNote] = .ok [] := by
    simp [rollLoop, pmOneNote, get_min_max_pitch, allNotes, tempo_range_std_zero]
  have hadm : admittedRolls [pmOneNote] = .ok [] := by
    simp [admittedRolls, hagg, hroll, bind, Except.bind]
  exact ⟨hadm, filter_empty_fails_at_hstack [pmOneNote] hadm⟩

/-! ## Tempo declarations are not filtered (C5) -/

/-- C5 counterexample: a parsed file with two tempo declarations but one key
signature and one time signature is retained by the loader, not discarded. -/
theorem loader_retains_multi_tempo_file :
    1 < pmTwoTempos.tempo_change_times.length ∧
      file_filter [some pmTwoTempos] = [pmTwoTempos] := by
  constructor
  · simp [pmTwoTempos]
  · simp [file_filter, pmTwoTempos]

/-- C5 amended: the loader's retention test reads only the key-signature and
time-signature counts; a file with more than one tempo declaration is retained
iff those two counts are both exactly one. -/
theorem loader_ignores_tempo_declarations (pm : PrettyMIDI)
    (htempo : 1 < pm.tempo_change_times.length) :
    file_filter [some pm] =
      (if pm.key_signature_changes.length = 1 ∧
          pm.time_signature_changes.length = 1
       then [pm] else []) := by
  simp only [file_filter, List.foldl_cons, List.foldl_nil]
  split
  · simp
  · rfl

/-- C5 amended witness: the two-tempo file is retained because its key and
time signature counts are one. -/
theorem loader_ignores_tempo_declarations_witness :
    1 < pmTwoTempos.tempo_change_times.length ∧
      file_filter [some pmTwoTempos] =
        (if pmTwoTempos.key_signature_changes.length = 1 ∧
            pmTwoTempos.time_signature_changes.length = 1
         then [pmTwoTempos] else []) :=
  ⟨by simp [pmTwoTempos],
   loader_ignores_tempo_declarations pmTwoTempos (by simp [pmTwoTempos])⟩

/-- C7 witness: the admission loop on a one-track corpus with standard
deviation 0 returns the empty list of rolls. -/
theorem std_zero_admits_no_track_witness :
    rollLoop (120 : ℝ) 0 21 108 [] [pmLowHigh] = .ok ([] : List Mat) ∧
      ([] : List Mat) = [] := by
  have h : rollLoop (120 : ℝ) 0 21 108 [] [pmLowHigh] = .ok [] := by
    simp [rollLoop, pmLowHigh, get_min_max_pitch, allNotes, tempo_range_std_zero]
  exact ⟨h, std_zero_admits_no_track.2 120 21 108 [pmLowHigh] [] h⟩

/-- C10 witness: a directory of two unparseable files loads to the empty
corpus without an exception. -/
theorem loader_swallows_per_file_failures_witness :
    (∀ f ∈ ([none, none] : List (Option PrettyMIDI)), f = none) ∧
      file_filter [none, none] = [] :=
  ⟨by simp, loader_swallows_per_file_failures.2 [none, none] (by simp)⟩
